import Mathlib

/-!
Verification of the confluence-sync repository.

The development shallowly embeds the three Python source files
(`confluence_sync.py`, `HttpTrigger/__init__.py`, `ConfluenceSync/__init__.py`)
as Lean functions over explicit models of the external collaborators
(the wiki REST service and the blob store).  Pages served by the wiki are
modelled as finite trees carrying, besides the page data, flags saying
whether the corresponding REST calls (`get_page_content`, `get_child_pages`)
raise for that page; exceptions are modelled with `Except`, and a function
whose Python body swallows an exception returns the pair of the work done
before the exception together with the swallowed outcome.
-/

/-- A blob upload performed by `upload_to_azure_blob`: the blob name, the
uploaded content and the `created_date` metadata entry. -/
structure Upload where
  blobName : String
  content : String
  createdDate : String
deriving Repr, DecidableEq

/-- Model of Python `s.replace("\\", "/")` (single-character pattern, so it is
a character-wise substitution). -/
def replaceBackslashes (s : String) : String :=
  ⟨s.data.map fun c => if c = '\\' then '/' else c⟩

/-- Model of `os.path.join(a, b)` with POSIX semantics: if `b` is absolute it
wins; otherwise `b` is appended to `a`, inserting `'/'` unless `a` is empty or
already ends with `'/'`. -/
def osPathJoin (a b : String) : String :=
  if b.data.head? = some '/' then b
  else if a = "" then b
  else if a.data.getLast? = some '/' then a ++ b
  else a ++ "/" ++ b

/-- Model of Python `'/'.join(l)` (also the spec's "titles joined by `/`"). -/
def joinSlash : List String → String
  | [] => ""
  | [x] => x
  | x :: xs => x ++ "/" ++ joinSlash xs

/-- A page tree as served by the wiki service, rooted at some page:
the page's id, title, body, last-modified timestamp, and its direct
children in the order the service returns them.  `fetchErr` says that
`get_page_content` raises for this page and `childErr` that
`get_child_pages` raises for this page. -/
inductive PageTree where
  | node (id title body lastModified : String) (fetchErr childErr : Bool)
      (children : List PageTree)
deriving Repr

def PageTree.id : PageTree → String
  | .node i _ _ _ _ _ _ => i

def PageTree.title : PageTree → String
  | .node _ t _ _ _ _ _ => t

def PageTree.body : PageTree → String
  | .node _ _ b _ _ _ _ => b

def PageTree.lastModified : PageTree → String
  | .node _ _ _ lm _ _ _ => lm

def PageTree.fetchErr : PageTree → Bool
  | .node _ _ _ _ fe _ _ => fe

def PageTree.childErr : PageTree → Bool
  | .node _ _ _ _ _ ce _ => ce

def PageTree.children : PageTree → List PageTree
  | .node _ _ _ _ _ _ cs => cs

mutual
/-- Embedding of `ConfluenceSync.process_page_full(page_id, path)`.  The whole
body sits in one `try/except`: fetch the page content, upload the blob named
`os.path.join(path, f"{title}.html").replace("\\", "/")`, fetch the children
and recurse on each with prefix `os.path.join(path, title)`.  The result is
the list of uploads performed, in order; an exception raised by the content
fetch contributes no upload and one raised by the children fetch stops before
any child, and either way the exception is caught and only logged, so the
function itself never raises. -/
def process_page_full (t : PageTree) (path : String) : List Upload :=
  match t with
  | .node _ title body lastModified fetchErr childErr children =>
    if fetchErr then []
    else
      let blob_name := replaceBackslashes (osPathJoin path (title ++ ".html"))
      let u : Upload := ⟨blob_name, body, lastModified⟩
      if childErr then [u]
      else u :: process_page_full_list children (osPathJoin path title)

/-- The `for child in child_pages:` loop of `process_page_full`: each child is
processed by a recursive call that catches its own exceptions, so the loop
always runs to the end of the list. -/
def process_page_full_list (ts : List PageTree) (path : String) : List Upload :=
  match ts with
  | [] => []
  | c :: cs => process_page_full c path ++ process_page_full_list cs path
end

mutual
/-- The ids of the pages whose content `process_page_full` attempts to fetch
(`get_page_content` is called on them), in call order.  A page whose content
fetch or children fetch raises contributes none of its descendants. -/
def pagesFetched (t : PageTree) : List String :=
  match t with
  | .node i _ _ _ fetchErr childErr children =>
    if fetchErr then [i]
    else if childErr then [i]
    else i :: pagesFetchedList children

def pagesFetchedList (ts : List PageTree) : List String :=
  match ts with
  | [] => []
  | c :: cs => pagesFetched c ++ pagesFetchedList cs
end

/-- A title that round-trips through the path construction: nonempty, does not
begin or end with `'/'`, and contains no backslash. -/
def goodTitleB (s : String) : Bool :=
  !s.data.isEmpty && s.data.head? != some '/' && s.data.getLast? != some '/'
    && s.data.all (· != '\\')

mutual
/-- Every title in the tree satisfies `goodTitleB`. -/
def goodTitlesB (t : PageTree) : Bool :=
  match t with
  | .node _ title _ _ _ _ children => goodTitleB title && goodTitlesListB children

def goodTitlesListB (ts : List PageTree) : Bool :=
  match ts with
  | [] => true
  | c :: cs => goodTitlesB c && goodTitlesListB cs
end

mutual
/-- No content fetch and no children fetch raises anywhere in the tree. -/
def noErrorsB (t : PageTree) : Bool :=
  match t with
  | .node _ _ _ _ fetchErr childErr children =>
    !fetchErr && !childErr && noErrorsListB children

def noErrorsListB (ts : List PageTree) : Bool :=
  match ts with
  | [] => true
  | c :: cs => noErrorsB c && noErrorsListB cs
end

/-- The spec's path formula for a page with ancestor-title chain `anc`
(root-to-parent, relative to the sync root): the ancestor titles joined by
`/`, followed by `<title>.html`. -/
def specPath (anc : List String) (title : String) : String :=
  joinSlash (anc ++ [title ++ ".html"])

mutual
/-- Spec-side description of a full sync: one upload per page of the tree, in
pre-order, whose blob path is `specPath` of the page's ancestor titles. -/
def specUploads (anc : List String) (t : PageTree) : List Upload :=
  match t with
  | .node _ title body lastModified _ _ children =>
    ⟨specPath anc title, body, lastModified⟩ :: specUploadsList (anc ++ [title]) children

def specUploadsList (anc : List String) (ts : List PageTree) : List Upload :=
  match ts with
  | [] => []
  | c :: cs => specUploads anc c ++ specUploadsList anc cs
end

/-- Structural induction for `PageTree` through the nested `List`. -/
theorem PageTree.strongInduction (P : PageTree → Prop)
    (h : ∀ t : PageTree, (∀ c ∈ t.children, P c) → P t) : ∀ t, P t := by
  intro t
  induction t using PageTree.rec (motive_2 := fun l => ∀ c ∈ l, P c) with
  | node i ti b lm fe ce cs ih => exact h _ (by simpa [PageTree.children] using ih)
  | nil => rename_i c hc; exact absurd hc (List.not_mem_nil c)
  | cons a as iha ihas =>
    rename_i c hc
    rcases List.mem_cons.mp hc with h1 | h2
    · exact h1 ▸ iha
    · exact ihas c h2

theorem replaceBackslashes_eq_self (s : String) (h : s.data.all (· != '\\') = true) :
    replaceBackslashes s = s := by
  cases s with
  | mk l =>
    simp only [replaceBackslashes]
    congr 1
    induction l with
    | nil => rfl
    | cons c cs ih =>
      simp only [List.all_cons, Bool.and_eq_true, bne_iff_ne, ne_eq] at h
      simp [h.1, ih (by simpa using h.2)]

theorem string_ne_empty_iff (s : String) : s ≠ "" ↔ s.data ≠ [] := by
  rw [ne_eq, String.ext_iff]

theorem head?_append_left (l l' : List Char) (h : l ≠ []) : (l ++ l').head? = l.head? := by
  cases l with
  | nil => exact absurd rfl h
  | cons a as => simp

theorem joinSlash_append_singleton (l : List String) (x : String) (h : l ≠ []) :
    joinSlash (l ++ [x]) = joinSlash l ++ "/" ++ x := by
  induction l with
  | nil => exact absurd rfl h
  | cons a as ih =>
    cases as with
    | nil => simp [joinSlash]
    | cons b bs =>
      simp only [List.cons_append, joinSlash, List.append_eq]
      rw [List.cons_append] at ih
      rw [ih (by simp)]
      simp [String.append_assoc]

theorem joinSlash_good (l : List String) (hne : l ≠ [])
    (h : ∀ s ∈ l, s ≠ "" ∧ s.data.getLast? ≠ some '/') :
    joinSlash l ≠ "" ∧ (joinSlash l).data.getLast? ≠ some '/' := by
  induction l with
  | nil => exact absurd rfl hne
  | cons a as ih =>
    cases as with
    | nil =>
      simpa [joinSlash] using h a (by simp)
    | cons b bs =>
      have hrest := ih (by simp) (fun s hs => h s (List.mem_cons_of_mem a hs))
      have hdata : (joinSlash (b :: bs)).data ≠ [] :=
        (string_ne_empty_iff _).mp hrest.1
      constructor
      · rw [string_ne_empty_iff]
        simp only [joinSlash, String.data_append]
        intro hcontra
        exact hdata (List.append_eq_nil.mp hcontra).2
      · simp only [joinSlash, String.data_append, List.append_assoc]
        rw [List.getLast?_append]
        cases hlast : (joinSlash (b :: bs)).data.getLast? with
        | none => exact absurd (List.getLast?_eq_none_iff.mp hlast) hdata
        | some c =>
          rw [List.getLast?_append, hlast]
          simp only [Option.or_some]
          rw [hlast] at hrest
          exact hrest.2

theorem osPathJoin_joinSlash (l : List String) (x : String)
    (hgood : ∀ s ∈ l, s ≠ "" ∧ s.data.getLast? ≠ some '/')
    (hx : x.data.head? ≠ some '/') :
    osPathJoin (joinSlash l) x = joinSlash (l ++ [x]) := by
  cases l with
  | nil => simp [joinSlash, osPathJoin, hx]
  | cons a as =>
    have h3 := joinSlash_good (a :: as) (by simp) hgood
    rw [joinSlash_append_singleton _ _ (by simp)]
    simp [osPathJoin, hx, h3.1, h3.2]

theorem joinSlash_all_ne_backslash (l : List String)
    (h : ∀ s ∈ l, s.data.all (· != '\\') = true) :
    (joinSlash l).data.all (· != '\\') = true := by
  induction l with
  | nil => rfl
  | cons a as ih =>
    cases as with
    | nil => simpa [joinSlash] using h a (by simp)
    | cons b bs =>
      have ha := h a (by simp)
      have hrest := ih (fun s hs => h s (List.mem_cons_of_mem a hs))
      simp only [joinSlash, String.data_append, List.all_append]
      simp only [joinSlash] at hrest
      simp [ha, hrest]

theorem goodTitleB_spec (s : String) (h : goodTitleB s = true) :
    s ≠ "" ∧ s.data.head? ≠ some '/' ∧ s.data.getLast? ≠ some '/'
      ∧ s.data.all (· != '\\') = true := by
  simp only [goodTitleB, Bool.and_eq_true, Bool.not_eq_true', List.isEmpty_eq_false,
    bne_iff_ne, ne_eq] at h
  refine ⟨?_, h.1.1.2, h.1.2, h.2⟩
  rw [string_ne_empty_iff]
  exact h.1.1.1

theorem process_page_full_spec_aux (t : PageTree) :
    goodTitlesB t = true → noErrorsB t = true →
      ∀ anc : List String, (∀ s ∈ anc, goodTitleB s = true) →
        process_page_full t (joinSlash anc) = specUploads anc t := by
  induction t using PageTree.strongInduction with
  | _ t ih =>
    cases t with
    | node i title body lm fe ce cs =>
      intro hg he anc hanc
      simp only [goodTitlesB, Bool.and_eq_true] at hg
      simp only [noErrorsB, Bool.and_eq_true, Bool.not_eq_true'] at he
      obtain ⟨⟨hfe, hce⟩, hecs⟩ := he
      obtain ⟨hgt, hgcs⟩ := hg
      have htitle := goodTitleB_spec title hgt
      have ihcs : ∀ c ∈ cs, goodTitlesB c = true → noErrorsB c = true →
          ∀ anc' : List String, (∀ s ∈ anc', goodTitleB s = true) →
            process_page_full c (joinSlash anc') = specUploads anc' c := by
        intro c hc
        exact ih c (by simpa [PageTree.children] using hc)
      have hancgood : ∀ s ∈ anc, s ≠ "" ∧ s.data.getLast? ≠ some '/' := by
        intro s hs
        have h := goodTitleB_spec s (hanc s hs)
        exact ⟨h.1, h.2.2.1⟩
      have htitledata : title.data ≠ [] := (string_ne_empty_iff title).mp htitle.1
      have hhtml : (title ++ ".html").data.head? ≠ some '/' := by
        rw [String.data_append, head?_append_left _ _ htitledata]
        exact htitle.2.1
      have hblob : osPathJoin (joinSlash anc) (title ++ ".html") = specPath anc title := by
        rw [osPathJoin_joinSlash anc _ hancgood hhtml]; rfl
      have hrec : osPathJoin (joinSlash anc) title = joinSlash (anc ++ [title]) :=
        osPathJoin_joinSlash anc title hancgood htitle.2.1
      have hnoback : (specPath anc title).data.all (· != '\\') = true := by
        apply joinSlash_all_ne_backslash
        intro s hs
        rcases List.mem_append.mp hs with h1 | h2
        · exact (goodTitleB_spec s (hanc s h1)).2.2.2
        · rw [List.mem_singleton.mp h2, String.data_append, List.all_append]
          exact (Bool.and_eq_true _ _).mpr ⟨htitle.2.2.2, by decide⟩
      have hanc' : ∀ s ∈ anc ++ [title], goodTitleB s = true := by
        intro s hs
        rcases List.mem_append.mp hs with h1 | h2
        · exact hanc s h1
        · rw [List.mem_singleton.mp h2]; exact hgt
      have hlist : ∀ l : List PageTree, (∀ c ∈ l, c ∈ cs) → goodTitlesListB l = true →
          noErrorsListB l = true →
          process_page_full_list l (joinSlash (anc ++ [title])) =
            specUploadsList (anc ++ [title]) l := by
        intro l
        induction l with
        | nil => intro _ _ _; rfl
        | cons c l' ihl =>
          intro hmem hgl hel
          simp only [goodTitlesListB, Bool.and_eq_true] at hgl
          simp only [noErrorsListB, Bool.and_eq_true] at hel
          simp only [process_page_full_list, specUploadsList]
          rw [ihcs c (hmem c (by simp)) hgl.1 hel.1 (anc ++ [title]) hanc',
            ihl (fun c' hc' => hmem c' (by simp [hc'])) hgl.2 hel.2]
      simp only [process_page_full, specUploads, hfe, hce, Bool.false_eq_true, if_false]
      rw [hblob, hrec, replaceBackslashes_eq_self _ hnoback,
        hlist cs (fun c hc => hc) hgcs hecs]

/-- C1 (amended): for every page tree in which every content fetch and every
children listing succeeds and every title is nonempty, contains no backslash
and neither begins nor ends with `'/'`, a full sync started at the root with
empty path prefix uploads exactly one object per page, in pre-order, whose
blob path equals the page's ancestor titles joined by `/` followed by
`<title>.html`. -/
theorem C1_full_sync_paths (t : PageTree)
    (hg : goodTitlesB t = true) (he : noErrorsB t = true) :
    process_page_full t "" = specUploads [] t := by
  have h := process_page_full_spec_aux t hg he [] (by intro s hs; cases hs)
  simpa using h

/-- A one-page tree whose title contains a backslash. -/
def backslashTitleTree : PageTree :=
  .node "1" "a\\b" "body1" "2024-01-01" false false []

/-- C1 as stated fails: for the one-page tree titled `a\b` (no fetch errors),
the uploaded blob path is `a/b.html`, not the ancestor-join formula `a\b.html`. -/
theorem C1_counterexample :
    process_page_full backslashTitleTree "" ≠ specUploads [] backslashTitleTree
      ∧ noErrorsB backslashTitleTree = true := by
  constructor
  · intro h
    have := congrArg (fun l => (l.map Upload.blobName)) h
    simp only [backslashTitleTree, process_page_full, specUploads] at this
    revert this
    decide
  · decide

/-- Witness for C1: a two-level tree with good titles. -/
def c1WitnessTree : PageTree :=
  .node "1" "Home" "bodyH" "2024-01-01" false false
    [.node "2" "Sub Page" "bodyS" "2024-01-02" false false []]

theorem C1_witness :
    goodTitlesB c1WitnessTree = true ∧ noErrorsB c1WitnessTree = true ∧
      process_page_full c1WitnessTree "" = specUploads [] c1WitnessTree :=
  ⟨by decide, by decide, C1_full_sync_paths c1WitnessTree (by decide) (by decide)⟩

/-- The upstream wiki service's reply to
`GET {CONFLUENCE_REST_API_URL}/{page_id}?expand=body.storage,version`:
the HTTP status and the JSON fields the code reads. -/
structure WikiResponse where
  status : Nat
  title : String
  bodyStorageValue : String
  versionWhen : String
deriving Repr, DecidableEq

/-- Embedding of `ConfluenceSync.get_page_content(page_id)`: issue the GET for
the page, `raise_for_status()` (an exception iff the status is 4xx or 5xx),
then return `(title, body.storage.value, version.when)` from the JSON. -/
def get_page_content (wiki : String → WikiResponse) (page_id : String) :
    Except String (String × String × String) :=
  let response := wiki page_id
  if 400 ≤ response.status ∧ response.status < 600 then
    .error ("HTTP " ++ toString response.status)
  else
    .ok (response.title, response.bodyStorageValue, response.versionWhen)

/-- Embedding of `ConfluenceSync.get_updated_page_content(page_id)`, whose
Python body is written out identically to `get_page_content`. -/
def get_updated_page_content (wiki : String → WikiResponse) (page_id : String) :
    Except String (String × String × String) :=
  let response := wiki page_id
  if 400 ≤ response.status ∧ response.status < 600 then
    .error ("HTTP " ++ toString response.status)
  else
    .ok (response.title, response.bodyStorageValue, response.versionWhen)

/-- C9: for every page identifier and every upstream response,
`get_updated_page_content` returns exactly the same result, and fails under
exactly the same conditions, as `get_page_content`. -/
theorem C9_get_updated_eq_get_page_content :
    ∀ (wiki : String → WikiResponse) (page_id : String),
      get_updated_page_content wiki page_id = get_page_content wiki page_id :=
  fun _ _ => rfl

/-- A page record as returned by the `atlassian` Confluence client; we keep
the fields the code reads. -/
structure PageRec where
  id : String
  title : String
deriving Repr, DecidableEq

/-- The wiki data consulted by `get_root_page_id`: the list returned by
`get_all_pages_from_space(space, limit=1)` and, for each page id, the list
returned by `get_page_ancestors` (top-most ancestor first). -/
structure SpaceCatalog where
  pagesOfSpace : List PageRec
  ancestorsOf : String → List PageRec

/-- The failure of `get_root_page_id` on a space with no pages (the IndexError
raised by `[0]` on the empty page list; the spec calls it `NotFoundError`). -/
inductive RootError where
  | notFound
deriving Repr, DecidableEq

/-- Embedding of `ConfluenceSync.get_root_page_id()`: take the first page of
`get_all_pages_from_space(space, limit=1)` (failing if there is none), fetch
its ancestors; with no ancestors return that page's own id, otherwise the id
of the first (top-most) ancestor. -/
def get_root_page_id (cat : SpaceCatalog) : Except RootError String :=
  match cat.pagesOfSpace with
  | [] => .error .notFound
  | p :: _ =>
    match cat.ancestorsOf p.id with
    | [] => .ok p.id
    | a :: _ => .ok a.id

/-- C8: `get_root_page_id` fails with the not-found error when the space has
no pages; when the arbitrary page it obtains has no ancestors it returns that
page's own id; otherwise it returns the id of the first (top-most) element of
the ancestor list. -/
theorem C8_get_root_page_id (cat : SpaceCatalog) :
    (cat.pagesOfSpace = [] → get_root_page_id cat = .error .notFound) ∧
    (∀ p rest, cat.pagesOfSpace = p :: rest → cat.ancestorsOf p.id = [] →
      get_root_page_id cat = .ok p.id) ∧
    (∀ p rest a arest, cat.pagesOfSpace = p :: rest →
      cat.ancestorsOf p.id = a :: arest → get_root_page_id cat = .ok a.id) := by
  refine ⟨fun h => ?_, fun p rest hp ha => ?_, fun p rest a arest hp ha => ?_⟩
  · simp [get_root_page_id, h]
  · simp [get_root_page_id, hp, ha]
  · simp [get_root_page_id, hp, ha]

/-- Witness for C8: a catalog whose arbitrary page `7` has top-most ancestor
`1`. -/
def c8Catalog : SpaceCatalog :=
  ⟨[⟨"7", "Some Page"⟩], fun i => if i = "7" then [⟨"1", "Root"⟩, ⟨"3", "Mid"⟩] else []⟩

theorem C8_witness : get_root_page_id c8Catalog = .ok "1" :=
  (C8_get_root_page_id c8Catalog).2.2 ⟨"7", "Some Page"⟩ [] ⟨"1", "Root"⟩ [⟨"3", "Mid"⟩]
    rfl (by decide)

/-- Outcome of the underlying blob-storage calls during one upload: all three
(`get_blob_client`, `upload_blob`, `set_blob_metadata`) succeed, or one of
them raises. -/
inductive StorageOutcome where
  | allOk
  | getClientRaises (msg : String)
  | uploadRaises (msg : String)
  | setMetadataRaises (msg : String)
deriving Repr, DecidableEq

/-- The try-block of `ConfluenceSync.upload_to_azure_blob`: get the blob
client, `upload_blob(content, overwrite=True)`, `set_blob_metadata(metadata)`;
it raises exactly when the storage operation reached raises. -/
def upload_to_azure_blob_attempt (outcome : StorageOutcome)
    (content blob_name createdDate : String) : Except String Unit :=
  match outcome with
  | .allOk => .ok ()
  | .getClientRaises m => .error m
  | .uploadRaises m => .error m
  | .setMetadataRaises m => .error m

/-- Embedding of `ConfluenceSync.upload_to_azure_blob(content, blob_name,
metadata)`: run the attempt; any exception is caught by the `except` clause
and only printed, and the function returns `None` either way. -/
def upload_to_azure_blob (outcome : StorageOutcome)
    (content blob_name createdDate : String) : Except String Unit :=
  match upload_to_azure_blob_attempt outcome content blob_name createdDate with
  | .ok _ => .ok ()
  | .error _ => .ok ()

/-- C7: for every input and every outcome of the underlying blob-storage
operations, `upload_to_azure_blob` returns normally (never propagates an
exception), and its return value is the same whatever the outcome, so the
caller cannot distinguish a successful upload from a failed-and-logged one. -/
theorem C7_upload_never_raises :
    (∀ (outcome : StorageOutcome) (content blob_name createdDate : String),
      upload_to_azure_blob outcome content blob_name createdDate = .ok ()) ∧
    (∀ (o₁ o₂ : StorageOutcome) (content blob_name createdDate : String),
      upload_to_azure_blob o₁ content blob_name createdDate =
        upload_to_azure_blob o₂ content blob_name createdDate) := by
  constructor
  · intro outcome content blob_name createdDate
    cases outcome <;> rfl
  · intro o₁ o₂ content blob_name createdDate
    cases o₁ <;> cases o₂ <;> rfl

theorem process_page_full_list_append (l₁ l₂ : List PageTree) (path : String) :
    process_page_full_list (l₁ ++ l₂) path =
      process_page_full_list l₁ path ++ process_page_full_list l₂ path := by
  induction l₁ with
  | nil => rfl
  | cons c cs ih =>
    simp only [List.cons_append, process_page_full_list, List.append_eq, ih,
      List.append_assoc]

theorem process_page_full_fetchErr (c : PageTree) (path : String)
    (hc : c.fetchErr = true) : process_page_full c path = [] := by
  cases c with
  | node i ti b lm fe ce cs =>
    simp only [PageTree.fetchErr] at hc
    simp [process_page_full, hc]

theorem pagesFetched_fetchErr (c : PageTree) (hc : c.fetchErr = true) :
    pagesFetched c = [c.id] := by
  cases c with
  | node i ti b lm fe ce cs =>
    simp only [PageTree.fetchErr] at hc
    simp [pagesFetched, PageTree.id, hc]

theorem pagesFetchedList_append (l₁ l₂ : List PageTree) :
    pagesFetchedList (l₁ ++ l₂) = pagesFetchedList l₁ ++ pagesFetchedList l₂ := by
  induction l₁ with
  | nil => rfl
  | cons c cs ih =>
    simp only [List.cons_append, pagesFetchedList, List.append_eq, ih,
      List.append_assoc]

/-- C4: in a full sync of a parent page whose own fetches succeed, a child `C`
whose content fetch raises contributes no upload and only its own attempted
fetch — none of `C`'s children is ever visited — while the parent's loop still
processes the sibling lists before and after `C` exactly as usual. -/
theorem C4_fetch_error_containment (i title body lm path : String)
    (cs₁ cs₂ : List PageTree) (c : PageTree) (hc : c.fetchErr = true) :
    process_page_full (.node i title body lm false false (cs₁ ++ c :: cs₂)) path =
      ⟨replaceBackslashes (osPathJoin path (title ++ ".html")), body, lm⟩ ::
        (process_page_full_list cs₁ (osPathJoin path title) ++
          process_page_full_list cs₂ (osPathJoin path title)) ∧
    pagesFetched (.node i title body lm false false (cs₁ ++ c :: cs₂)) =
      i :: (pagesFetchedList cs₁ ++ c.id :: pagesFetchedList cs₂) ∧
    process_page_full c (osPathJoin path title) = [] := by
  refine ⟨?_, ?_, process_page_full_fetchErr c _ hc⟩
  · simp only [process_page_full, if_false, Bool.false_eq_true,
      process_page_full_list_append, process_page_full_list,
      process_page_full_fetchErr c _ hc, List.nil_append]
  · simp only [pagesFetched, if_false, Bool.false_eq_true, pagesFetchedList_append,
      pagesFetchedList, pagesFetched_fetchErr c hc, List.singleton_append]

/-- Witness for C4: parent `Home` with children `A`, the failing `Bad`, `B`. -/
def c4Child : PageTree := .node "3" "Bad" "bodyBad" "2024-01-03" true false
  [.node "4" "Grandchild" "bodyG" "2024-01-04" false false []]

theorem C4_witness :
    c4Child.fetchErr = true ∧
    process_page_full (.node "1" "Home" "bodyH" "2024-01-01" false false
        ([.node "2" "A" "bodyA" "2024-01-02" false false []] ++ c4Child ::
          [.node "5" "B" "bodyB" "2024-01-05" false false []])) "" =
      ⟨replaceBackslashes (osPathJoin "" ("Home" ++ ".html")), "bodyH", "2024-01-01"⟩ ::
        (process_page_full_list [.node "2" "A" "bodyA" "2024-01-02" false false []]
            (osPathJoin "" "Home") ++
          process_page_full_list [.node "5" "B" "bodyB" "2024-01-05" false false []]
            (osPathJoin "" "Home")) :=
  ⟨by decide, (C4_fetch_error_containment "1" "Home" "bodyH" "2024-01-01" ""
    [.node "2" "A" "bodyA" "2024-01-02" false false []]
    [.node "5" "B" "bodyB" "2024-01-05" false false []] c4Child (by decide)).1⟩

/-- A page of the target space as seen by the incremental sync: the data
returned for it by the CQL query, the content fetch and the ancestors fetch,
plus flags saying that its content fetch (`fetchErr`) or its ancestors fetch
(`ancErr`) raises. -/
structure IncPage where
  id : String
  title : String
  body : String
  lastModifiedDay : Nat
  versionWhen : String
  ancestorTitles : List String
  fetchErr : Bool
  ancErr : Bool
deriving Repr, DecidableEq

/-- The CQL query `space = {space} AND type = page AND lastmodified >=
{yesterday} AND lastmodified < {today}`: the wiki service returns exactly the
pages of the space whose last-modified date lies in the half-open window.
Dates are modelled as day numbers. -/
def cqlModifiedWindow (pages : List IncPage) (yesterday today : Nat) : List IncPage :=
  pages.filter fun p => yesterday ≤ p.lastModifiedDay && p.lastModifiedDay < today

/-- Embedding of `ConfluenceSync.build_full_path(page_id)`: the titles of the
page's ancestors (root-to-parent), joined with `/`. -/
def build_full_path (p : IncPage) : String := joinSlash p.ancestorTitles

/-- The upload performed for one queried page by the incremental loop: blob
name `os.path.join(build_full_path(page), f"{title}.html").replace("\\", "/")`,
the page body, and the `created_date` metadata. -/
def incUpload (p : IncPage) : Upload :=
  ⟨replaceBackslashes (osPathJoin (build_full_path p) (p.title ++ ".html")),
    p.body, p.versionWhen⟩

/-- The `for page_id in page_ids:` loop of `process_page_incremental`: fetch
the page's content, build its path from its ancestors, upload.  The loop body
is not individually guarded, so an exception raised for one page escapes the
loop; the result is the list of uploads performed before the exception
together with the exception, if any. -/
def process_page_incremental_loop : List IncPage → List Upload × Except String Unit
  | [] => ([], .ok ())
  | p :: rest =>
    if p.fetchErr then ([], .error ("content fetch failed for " ++ p.id))
    else if p.ancErr then ([], .error ("ancestors fetch failed for " ++ p.id))
    else
      let result := process_page_incremental_loop rest
      (incUpload p :: result.1, result.2)

/-- Embedding of `ConfluenceSync.process_page_incremental()`: compute
yesterday's and today's dates, run the CQL query for the window
`[yesterday, today)`, then run the loop over the returned page ids.  The
single surrounding `try/except` catches any exception and only logs it, so
the uploads performed before a failure are kept and the call returns
normally. -/
def process_page_incremental (pages : List IncPage) (today : Nat) : List Upload :=
  (process_page_incremental_loop (cqlModifiedWindow pages (today - 1) today)).1

theorem process_page_incremental_loop_err (pre post : List IncPage) (p : IncPage)
    (hpre : ∀ q ∈ pre, q.fetchErr = false ∧ q.ancErr = false)
    (hp : p.fetchErr = true ∨ p.ancErr = true) :
    (process_page_incremental_loop (pre ++ p :: post)).1 = pre.map incUpload := by
  induction pre with
  | nil =>
    cases hf : p.fetchErr with
    | true => simp [process_page_incremental_loop, hf]
    | false =>
      have ha : p.ancErr = true := by
        rcases hp with h | h
        · exact absurd h (by simp [hf])
        · exact h
      simp [process_page_incremental_loop, hf, ha]
  | cons q pre' ih =>
    have hq := hpre q (by simp)
    simp [process_page_incremental_loop, hq.1, hq.2,
      ih (fun r hr => hpre r (by simp [hr]))]

theorem process_page_incremental_loop_ok (l : List IncPage)
    (h : ∀ p ∈ l, p.fetchErr = false ∧ p.ancErr = false) :
    process_page_incremental_loop l = (l.map incUpload, .ok ()) := by
  induction l with
  | nil => rfl
  | cons p rest ih =>
    have hp := h p (by simp)
    simp [process_page_incremental_loop, hp.1, hp.2,
      ih (fun q hq => h q (by simp [hq]))]

/-- C3 (amended): during an incremental sync a per-page error is NOT contained
at the page level: the pages preceding the failing page in the query result
are uploaded, the failing page and every page after it are skipped; the
exception is caught at the top of `process_page_incremental`, so the call
itself still returns normally. -/
theorem C3_incremental_error_aborts (pages : List IncPage) (today : Nat)
    (pre post : List IncPage) (p : IncPage)
    (hq : cqlModifiedWindow pages (today - 1) today = pre ++ p :: post)
    (hpre : ∀ q ∈ pre, q.fetchErr = false ∧ q.ancErr = false)
    (hp : p.fetchErr = true ∨ p.ancErr = true) :
    process_page_incremental pages today = pre.map incUpload := by
  unfold process_page_incremental
  rw [hq]
  exact process_page_incremental_loop_err pre post p hpre hp

/-- A queried page processed before the failing one. -/
def c3Pre : IncPage := ⟨"9", "First", "bodyF", 9, "2024-01-09", [], false, false⟩

/-- A queried page whose content fetch raises. -/
def c3BadPage : IncPage := ⟨"10", "Bad", "bodyX", 9, "2024-01-09", [], true, false⟩

/-- A queried page after the failing one; its own fetches succeed. -/
def c3GoodPage : IncPage :=
  ⟨"11", "Good", "bodyG", 9, "2024-01-09", ["Root"], false, false⟩

/-- C3 as stated fails: with pages `Bad` (content fetch raises) and `Good`
both modified in the window, the sync of `[Bad, Good]` uploads nothing — the
remaining page `Good` is not processed — although `Good` alone would be
uploaded. -/
theorem C3_counterexample :
    c3GoodPage ∈ cqlModifiedWindow [c3BadPage, c3GoodPage] (10 - 1) 10 ∧
    process_page_incremental [c3BadPage, c3GoodPage] 10 = [] ∧
    process_page_incremental [c3GoodPage] 10 = [incUpload c3GoodPage] := by
  refine ⟨by decide, by decide, by decide⟩

theorem C3_witness :
    process_page_incremental [c3Pre, c3BadPage, c3GoodPage] 10 =
      ([c3Pre].map incUpload) :=
  C3_incremental_error_aborts [c3Pre, c3BadPage, c3GoodPage] 10
    [c3Pre] [c3GoodPage] c3BadPage (by decide) (by decide) (Or.inl (by decide))

/-- C5: when no queried page's content or ancestors fetch fails, an
incremental sync uploads exactly the pages of the space whose queried
last-modified date falls in the half-open window `[yesterday, today)`, one
upload each in query order, and no other pages. -/
theorem C5_incremental_window (pages : List IncPage) (today : Nat)
    (h : ∀ p ∈ cqlModifiedWindow pages (today - 1) today,
      p.fetchErr = false ∧ p.ancErr = false) :
    process_page_incremental pages today =
      (pages.filter fun p =>
        today - 1 ≤ p.lastModifiedDay && p.lastModifiedDay < today).map incUpload := by
  unfold process_page_incremental
  rw [process_page_incremental_loop_ok _ h]
  simp [cqlModifiedWindow]

/-- A page modified inside the window `[9, 10)`. -/
def c5In : IncPage := ⟨"20", "In", "bodyI", 9, "2024-01-09", ["Root"], false, false⟩

/-- A page modified outside the window. -/
def c5Out : IncPage := ⟨"21", "Out", "bodyO", 5, "2024-01-05", [], false, false⟩

theorem C5_witness :
    (∀ p ∈ cqlModifiedWindow [c5In, c5Out] (10 - 1) 10,
      p.fetchErr = false ∧ p.ancErr = false) ∧
    process_page_incremental [c5In, c5Out] 10 =
      (([c5In, c5Out] : List IncPage).filter fun p =>
        10 - 1 ≤ p.lastModifiedDay && p.lastModifiedDay < 10).map incUpload :=
  ⟨by decide, C5_incremental_window [c5In, c5Out] 10 (by decide)⟩

/-- An HTTP response of an entry point: body text and status code. -/
structure HttpResponse where
  body : String
  status : Nat
deriving Repr, DecidableEq

/-- One upstream (wiki-service or storage) call made while serving a
request. -/
inductive UpstreamCall where
  | storageCreateContainer (container : String)
  | wikiGetAllPages (space : String)
  | wikiGetAncestors (pageId : String)
deriving Repr, DecidableEq

/-- Environment of one request: whether the storage connection string parses,
the wiki data behind `get_root_page_id`, the page tree served under the
resolved root (full sync), the pages of the space (incremental sync), and the
date at call time. -/
structure SyncEnv where
  connStringOk : Bool
  catalog : SpaceCatalog
  tree : PageTree
  incPages : List IncPage
  today : Nat

/-- The session built by `ConfluenceSync.__init__`. -/
structure SyncState where
  space : String
  containerName : String
  rootPageId : String
deriving Repr, DecidableEq

/-- Embedding of `ConfluenceSync.__init__(space)`: read the configuration,
build the clients (`BlobServiceClient.from_connection_string` may raise before
any upstream call), pick the container (`public` for space `SIA`, otherwise
`private`), run `_create_container` (a storage call whose own errors are
swallowed), then resolve `root_page_id` with `get_root_page_id` — a wiki call
listing the space's pages and, when one exists, a wiki call for its ancestors;
the IndexError on a space with no pages propagates out of the constructor.
Returns the upstream calls made together with the state or the exception. -/
def ConfluenceSync.init (env : SyncEnv) (space : String) :
    List UpstreamCall × Except String SyncState :=
  if env.connStringOk = false then
    ([], .error "invalid storage connection string")
  else
    let containerName := if space = "SIA" then "public" else "private"
    let createCalls := [UpstreamCall.storageCreateContainer containerName]
    match env.catalog.pagesOfSpace with
    | [] =>
      (createCalls ++ [.wikiGetAllPages space],
        .error "IndexError: list index out of range")
    | p :: _ =>
      match get_root_page_id env.catalog with
      | .error _ =>
        (createCalls ++ [.wikiGetAllPages space],
          .error "IndexError: list index out of range")
      | .ok rootId =>
        (createCalls ++ [.wikiGetAllPages space, .wikiGetAncestors p.id],
          .ok ⟨space, containerName, rootId⟩)

/-- The `try:` block shared verbatim by the two HTTP entry points: construct
the session, dispatch on `type` (`full` runs `process_page_full` from the
root with empty prefix, `incremental` runs `process_page_incremental`, any
other value yields the fixed 400 message), and the `except:` clause maps any
exception escaping the block to a generic 500.  Returns the response, the
upstream calls made, and the uploads performed. -/
def syncDispatch (env : SyncEnv) (space itype : String) :
    HttpResponse × List UpstreamCall × List Upload :=
  match ConfluenceSync.init env space with
  | (calls, .error _) =>
    (⟨"An error occurred while processing the request.", 500⟩, calls, [])
  | (calls, .ok _st) =>
    if itype = "full" then
      (⟨"Full sync completed for space: " ++ space ++ ".", 200⟩, calls,
        process_page_full env.tree "")
    else if itype = "incremental" then
      (⟨"Incremental sync completed for space: " ++ space ++ ".", 200⟩, calls,
        process_page_incremental env.incPages env.today)
    else
      (⟨"Invalid 'type' parameter. Please use 'full' or 'incremental'.", 400⟩,
        calls, [])

/-- Embedding of `HttpTrigger.main(req)`: read `space` and `type` from the
query string (`req.params.get` yields `none` when the parameter is absent);
if either is missing or empty return 400 at once, without any upstream call;
otherwise run the shared construct-and-dispatch block. -/
def HttpTrigger.main (env : SyncEnv) (space? itype? : Option String) :
    HttpResponse × List UpstreamCall × List Upload :=
  let space := space?.getD ""
  let itype := itype?.getD ""
  if space = "" ∨ itype = "" then
    (⟨"Please pass both 'space' and 'type' parameters in the query string.", 400⟩,
      [], [])
  else
    syncDispatch env space itype

/-- The JSON body of a request to the other entry point: presence and value of
the `space` and `type` keys (`itype` stands for the `type` key). -/
structure JsonBody where
  space : Option String
  itype : Option String
deriving Repr, DecidableEq

/-- Embedding of `ConfluenceSync/__init__.py`'s `main(req)`: `req.get_json()`
plus the two key accesses sit in a `try/except` answering 400 with the error
text (`Except.error` models a malformed body, `none` keys model KeyError);
then empty values get the fixed 400 message; then the shared
construct-and-dispatch block runs. -/
def ConfluenceSyncTrigger.main (env : SyncEnv) (body? : Except String JsonBody) :
    HttpResponse × List UpstreamCall × List Upload :=
  match body? with
  | .error e => (⟨e, 400⟩, [], [])
  | .ok data =>
    match data.space with
    | none => (⟨"'space'", 400⟩, [], [])
    | some space =>
      match data.itype with
      | none => (⟨"'type'", 400⟩, [], [])
      | some itype =>
        if space = "" ∨ itype = "" then
          (⟨"Please pass both 'space' and 'type' parameters in the query string.",
            400⟩, [], [])
        else
          syncDispatch env space itype

/-- The `space` or `type` query parameter is missing or empty. -/
def paramMissing (space? itype? : Option String) : Prop :=
  space?.getD "" = "" ∨ itype?.getD "" = ""

/-- The JSON body is malformed, lacks the `space` or `type` key, or carries an
empty value for one of them. -/
def jsonMissing (body? : Except String JsonBody) : Prop :=
  match body? with
  | .error _ => True
  | .ok data =>
    data.space = none ∨ data.itype = none ∨ data.space = some "" ∨
      data.itype = some ""

/-- C6: for either HTTP entry point, a request whose `space` or `type`
parameter is missing (or empty) is answered with status 400, and no upstream
(wiki-service or storage) call and no upload is made. -/
theorem C6_missing_params_400_no_calls (env : SyncEnv)
    (space? itype? : Option String) (body? : Except String JsonBody)
    (hq : paramMissing space? itype?) (hj : jsonMissing body?) :
    (HttpTrigger.main env space? itype?).1.status = 400 ∧
    (HttpTrigger.main env space? itype?).2.1 = [] ∧
    (HttpTrigger.main env space? itype?).2.2 = [] ∧
    (ConfluenceSyncTrigger.main env body?).1.status = 400 ∧
    (ConfluenceSyncTrigger.main env body?).2.1 = [] ∧
    (ConfluenceSyncTrigger.main env body?).2.2 = [] := by
  have h1 : HttpTrigger.main env space? itype? =
      (⟨"Please pass both 'space' and 'type' parameters in the query string.",
        400⟩, [], []) := by
    unfold paramMissing at hq
    simp only [HttpTrigger.main]
    rw [if_pos hq]
  have h2 : (ConfluenceSyncTrigger.main env body?).1.status = 400 ∧
      (ConfluenceSyncTrigger.main env body?).2.1 = [] ∧
      (ConfluenceSyncTrigger.main env body?).2.2 = [] := by
    cases body? with
    | error e => exact ⟨rfl, rfl, rfl⟩
    | ok data =>
      obtain ⟨ds, dt⟩ := data
      simp only [jsonMissing] at hj
      cases ds with
      | none => exact ⟨rfl, rfl, rfl⟩
      | some s =>
        cases dt with
        | none => exact ⟨rfl, rfl, rfl⟩
        | some ty =>
          have hst : s = "" ∨ ty = "" := by
            rcases hj with h | h | h | h
            · simp at h
            · simp at h
            · exact Or.inl (Option.some.inj h)
            · exact Or.inr (Option.some.inj h)
          simp only [ConfluenceSyncTrigger.main]
          rw [if_pos hst]
          exact ⟨rfl, rfl, rfl⟩
  rw [h1]
  exact ⟨rfl, rfl, rfl, h2.1, h2.2.1, h2.2.2⟩

/-- Environment for the C6 witness. -/
def c6Env : SyncEnv :=
  ⟨true, ⟨[⟨"7", "Root"⟩], fun _ => []⟩,
    .node "7" "Root" "bodyR" "2024-01-01" false false [], [], 10⟩

theorem C6_witness :
    paramMissing (some "ENG") none ∧
    jsonMissing (.ok ⟨some "ENG", some ""⟩) ∧
    (HttpTrigger.main c6Env (some "ENG") none).1.status = 400 ∧
    (HttpTrigger.main c6Env (some "ENG") none).2.1 = [] ∧
    (ConfluenceSyncTrigger.main c6Env (.ok ⟨some "ENG", some ""⟩)).1.status = 400 ∧
    (ConfluenceSyncTrigger.main c6Env (.ok ⟨some "ENG", some ""⟩)).2.1 = [] := by
  have h := C6_missing_params_400_no_calls c6Env (some "ENG") none
    (.ok ⟨some "ENG", some ""⟩) (Or.inr rfl) (by simp [jsonMissing])
  exact ⟨Or.inr rfl, by simp [jsonMissing], h.1, h.2.1, h.2.2.2.1, h.2.2.2.2.1⟩

theorem syncDispatch_unknown_ok (env : SyncEnv) (space itype : String)
    (hf : itype ≠ "full") (hi : itype ≠ "incremental")
    (calls : List UpstreamCall) (st : SyncState)
    (hInit : ConfluenceSync.init env space = (calls, .ok st)) :
    syncDispatch env space itype =
      (⟨"Invalid 'type' parameter. Please use 'full' or 'incremental'.", 400⟩,
        calls, []) := by
  unfold syncDispatch
  rw [hInit]
  simp only
  rw [if_neg hf, if_neg hi]

theorem syncDispatch_unknown_err (env : SyncEnv) (space itype : String)
    (calls : List UpstreamCall) (e : String)
    (hInit : ConfluenceSync.init env space = (calls, .error e)) :
    syncDispatch env space itype =
      (⟨"An error occurred while processing the request.", 500⟩, calls, []) := by
  unfold syncDispatch
  rw [hInit]

/-- Whenever the connection string parses, the constructor makes upstream
calls (at least the container-creation one) before returning or raising. -/
theorem init_calls_ne_nil (env : SyncEnv) (space : String) :
    env.connStringOk = true → (ConfluenceSync.init env space).1 ≠ [] := by
  intro hconn
  unfold ConfluenceSync.init
  rw [hconn]
  simp only [Bool.true_eq_false, if_false]
  rcases hcp : env.catalog.pagesOfSpace with _ | ⟨p, rest⟩
  · simp
  · rcases hr : get_root_page_id env.catalog with e' | rid <;> simp

/-- C2 (amended): in both entry points a request with non-empty `space` and a
present but unrecognized `type` reaches the invalid-type check only after the
sync session has been constructed: the upstream-call list at response time is
exactly the construction's (non-empty whenever the connection string parses,
because `_create_container` is always called), and the response is the fixed
invalid-type 400 when construction succeeds but the generic 500 when
construction raises. -/
theorem C2_unknown_type_after_construction (env : SyncEnv) (space itype : String)
    (hs : space ≠ "") (hit : itype ≠ "") (hf : itype ≠ "full")
    (hi : itype ≠ "incremental") :
    (HttpTrigger.main env (some space) (some itype)).2.1 =
      (ConfluenceSync.init env space).1 ∧
    (ConfluenceSyncTrigger.main env (.ok ⟨some space, some itype⟩)) =
      (HttpTrigger.main env (some space) (some itype)) ∧
    (∀ st, (ConfluenceSync.init env space).2 = .ok st →
      (HttpTrigger.main env (some space) (some itype)).1 =
        ⟨"Invalid 'type' parameter. Please use 'full' or 'incremental'.", 400⟩) ∧
    (∀ e, (ConfluenceSync.init env space).2 = .error e →
      (HttpTrigger.main env (some space) (some itype)).1 =
        ⟨"An error occurred while processing the request.", 500⟩) ∧
    (env.connStringOk = true → (ConfluenceSync.init env space).1 ≠ []) := by
  have hcond : ¬(space = "" ∨ itype = "") := by
    intro h; rcases h with h | h
    · exact hs h
    · exact hit h
  have hmain : HttpTrigger.main env (some space) (some itype) =
      syncDispatch env space itype := by
    simp only [HttpTrigger.main, Option.getD_some]
    rw [if_neg hcond]
  have hmain2 : ConfluenceSyncTrigger.main env (.ok ⟨some space, some itype⟩) =
      syncDispatch env space itype := by
    simp only [ConfluenceSyncTrigger.main]
    rw [if_neg hcond]
  refine ⟨?_, ?_, ?_, ?_, init_calls_ne_nil env space⟩
  · rcases hInit : ConfluenceSync.init env space with ⟨calls, res⟩
    cases res with
    | error e =>
      rw [hmain, syncDispatch_unknown_err env space itype calls e hInit]
    | ok st =>
      rw [hmain, syncDispatch_unknown_ok env space itype hf hi calls st hInit]
  · rw [hmain, hmain2]
  · intro st hst
    rcases hInit : ConfluenceSync.init env space with ⟨calls, res⟩
    rw [hInit] at hst
    cases res with
    | error e => simp at hst
    | ok st' =>
      rw [hmain, syncDispatch_unknown_ok env space itype hf hi calls st' hInit]
  · intro e he
    rcases hInit : ConfluenceSync.init env space with ⟨calls, res⟩
    rw [hInit] at he
    cases res with
    | error e' => rw [hmain, syncDispatch_unknown_err env space itype calls e' hInit]
    | ok st' => simp at he

/-- Environment for the C2 counterexample and witness: the space has a single
page `7` with no ancestors, so session construction succeeds. -/
def c2Env : SyncEnv :=
  ⟨true, ⟨[⟨"7", "Root"⟩], fun _ => []⟩,
    .node "7" "Root" "bodyR" "2024-01-01" false false [], [], 10⟩

/-- C2 as stated fails: for `space=ENG&type=archive` the query entry point
does answer 400, yet upstream calls (container creation, page listing,
ancestor listing) were made before that response was returned. -/
theorem C2_counterexample :
    (HttpTrigger.main c2Env (some "ENG") (some "archive")).1.status = 400 ∧
    (HttpTrigger.main c2Env (some "ENG") (some "archive")).2.1 ≠ [] := by
  constructor
  · decide
  · decide

theorem C2_witness :
    (c2Env.connStringOk = true → (ConfluenceSync.init c2Env "ENG").1 ≠ []) ∧
    (HttpTrigger.main c2Env (some "ENG") (some "archive")).2.1 =
      (ConfluenceSync.init c2Env "ENG").1 :=
  ⟨(C2_unknown_type_after_construction c2Env "ENG" "archive" (by decide)
      (by decide) (by decide) (by decide)).2.2.2.2,
    (C2_unknown_type_after_construction c2Env "ENG" "archive" (by decide)
      (by decide) (by decide) (by decide)).1⟩

/-- C10: `process_page_full` is total in the embedding — it returns an upload
list for every tree and error pattern, its Python body being one guarded
block — so once session construction succeeds, a full-sync request is
answered 200 with the success message, whatever the fetch and upload
outcomes in the tree. -/
theorem C10_full_sync_always_200 (env : SyncEnv) (space : String)
    (st : SyncState) (hs : space ≠ "")
    (hok : (ConfluenceSync.init env space).2 = .ok st) :
    (HttpTrigger.main env (some space) (some "full")).1 =
      ⟨"Full sync completed for space: " ++ space ++ ".", 200⟩ := by
  have hcond : ¬(space = "" ∨ "full" = "") := by
    intro h; rcases h with h | h
    · exact hs h
    · simp at h
  have hmain : HttpTrigger.main env (some space) (some "full") =
      syncDispatch env space "full" := by
    simp only [HttpTrigger.main, Option.getD_some]
    rw [if_neg hcond]
  rw [hmain]
  unfold syncDispatch
  rcases hInit : ConfluenceSync.init env space with ⟨calls, res⟩
  rw [hInit] at hok
  simp only at hok
  cases res with
  | error e => simp at hok
  | ok st' => rfl

/-- Environment for the C10 witness: construction succeeds, while every page
fetch in the tree fails. -/
def c10Env : SyncEnv :=
  ⟨true, ⟨[⟨"1", "Root"⟩], fun _ => []⟩,
    .node "1" "Root" "bodyR" "2024-01-01" true false [], [], 10⟩

theorem C10_witness :
    (ConfluenceSync.init c10Env "ENG").2 = .ok ⟨"ENG", "private", "1"⟩ ∧
    process_page_full c10Env.tree "" = [] ∧
    (HttpTrigger.main c10Env (some "ENG") (some "full")).1 =
      ⟨"Full sync completed for space: " ++ "ENG" ++ ".", 200⟩ :=
  ⟨rfl, rfl, C10_full_sync_always_200 c10Env "ENG" ⟨"ENG", "private", "1"⟩
    (by decide) rfl⟩
